import Mathlib

/-!
# knoxite: the `store` and `cat` commands and the OneDrive backend constructor

A shallow embedding of

* `cmd/knoxite/store.go`: `configureStoreOpts`, `store`, `executeStore`;
* `cmd/knoxite/cat.go`: `executeCat`;
* `storage/onedrive/onedrive.go`: `OnedriveStorage.NewBackend`.

Calls that leave these files (repository, snapshot, chunk index, shutdown
locks, the file system, standard output, OAuth) are answered by a `World`
record and logged, in program order, in a list of calls. Go's `int`/`uint`
are `Int`/`Nat` confined to `w` bits by explicit wrap-around.
-/

namespace Knoxite

/-! ## Errors -/

/-- Go error values. The errors that the embedded files create or name have a
constructor of their own; `other` wraps an error value handed back by a
callee, which is never one of these (a Go error made by `errors.New` or
`fmt.Errorf` is a value of its own). -/
inductive Error where
  | redundancyAmount
  | noSuchFile (file : String)
  | invalidUsername
  | invalidPassword
  | other (msg : String)
  deriving DecidableEq, Repr

/-- The text of the errors created in the embedded files
(`errors.New` in store.go, `fmt.Errorf` in cat.go). -/
def Error.message : Error → String
  | .redundancyAmount =>
      "failure tolerance can't be equal or higher as the number of storage backends"
  | .noSuchFile file => file ++ ": No such file or directory"
  | .invalidUsername => "invalid username"
  | .invalidPassword => "invalid password"
  | .other msg => msg

/-- The variable `ErrRedundancyAmount` of store.go. -/
abbrev ErrRedundancyAmount : Error := .redundancyAmount

/-- The variable `knoxite.ErrInvalidUsername`. -/
abbrev ErrInvalidUsername : Error := .invalidUsername

/-- The variable `knoxite.ErrInvalidPassword`. -/
abbrev ErrInvalidPassword : Error := .invalidPassword

/-! ## Machine integers -/

/-- Go `int(x)` for a `w`-bit `uint` value `x`: the same bits read in two's
complement. -/
def toInt (w : Nat) (x : Nat) : Int :=
  if x % 2 ^ w < 2 ^ (w - 1) then ((x % 2 ^ w : Nat) : Int)
  else ((x % 2 ^ w : Nat) : Int) - ((2 ^ w : Nat) : Int)

/-- The result of a `w`-bit `int` operation whose exact value is `z`:
wrap-around into `[-2^(w-1), 2^(w-1))`. -/
def wrapInt (w : Nat) (z : Int) : Int :=
  if z % ((2 ^ w : Nat) : Int) < ((2 ^ (w - 1) : Nat) : Int) then z % ((2 ^ w : Nat) : Int)
  else z % ((2 ^ w : Nat) : Int) - ((2 ^ w : Nat) : Int)

/-- Go `uint(z)` for a `w`-bit `int` value `z`. -/
def toUint (w : Nat) (z : Int) : Nat :=
  (z % ((2 ^ w : Nat) : Int)).toNat

/-! ## Data -/

/-- `StoreOptions` of store.go. `FailureTolerance` is a Go `uint`. -/
structure StoreOptions where
  Description : String
  Compression : String
  Encryption : String
  FailureTolerance : Nat
  Excludes : List String
  Pedantic : Bool
  deriving DecidableEq, Repr

/-- The entry of `cfg.Repositories` that `configureStoreOpts` reads. -/
structure RepoConfig where
  Compression : String
  Encryption : String
  Tolerance : Nat
  StoreExcludes : List String
  Pedantic : Bool
  deriving DecidableEq, Repr

/-- Compression kinds of the codec pipeline. -/
inductive CompressionType where
  | none | flate | gzip | lzma | zlib | zstd
  deriving DecidableEq, Repr

/-- Encryption kinds of the codec pipeline. -/
inductive EncryptionType where
  | aes | none
  deriving DecidableEq, Repr

/-- The two helpers of `cmd/knoxite/utils` that `store` calls; their source is
not among the embedded files, so `store` takes them as a parameter. -/
structure Utils where
  CompressionTypeFromString : String → Except String CompressionType
  EncryptionTypeFromString : String → Except String EncryptionType

/-- Modelled from the spec: `utils.CompressionTypeFromString` is missing; the
accepted names are the ones the spec and the flag help list ("none (default),
flate, gzip, lzma, zlib, zstd"), anything else is an error. -/
def specCompressionTypeFromString (s : String) : Except String CompressionType :=
  if s = "" ∨ s = "none" then .ok .none
  else if s = "flate" then .ok .flate
  else if s = "gzip" then .ok .gzip
  else if s = "lzma" then .ok .lzma
  else if s = "zlib" then .ok .zlib
  else if s = "zstd" then .ok .zstd
  else .error "unknown compression"

/-- Modelled from the spec: `utils.EncryptionTypeFromString` is missing; the
accepted names are the ones the spec and the flag help list ("aes (default),
none"), anything else is an error. -/
def specEncryptionTypeFromString (s : String) : Except String EncryptionType :=
  if s = "" ∨ s = "aes" then .ok .aes
  else if s = "none" then .ok .none
  else .error "unknown encryption"

/-- The helpers as the spec describes them. -/
def specUtils : Utils :=
  ⟨specCompressionTypeFromString, specEncryptionTypeFromString⟩

/-- `knoxite.StoreOptions`, the value `store` hands to `snapshot.Add`. -/
structure KStoreOptions where
  CWD : String
  Paths : List String
  Excludes : List String
  Compress : CompressionType
  Encrypt : EncryptionType
  Pedantic : Bool
  DataParts : Nat
  ParityParts : Nat
  deriving DecidableEq, Repr

/-- What `store` reads of a `knoxite.Progress` event. -/
structure Progress where
  Path : String
  Error : Option Error
  deriving DecidableEq, Repr

/-- One iteration of `for p := range progress`: the event received, and
whether the shutdown notifier `cancel` is ready when the `select` runs. -/
structure Step where
  cancel : Bool
  p : Progress
  deriving DecidableEq, Repr

/-- A per-file manifest, as far as `executeCat` looks at it. -/
structure Archive where
  Path : String
  deriving DecidableEq, Repr

/-- What the commands read of a repository: `len(BackendManager().Backends)`. -/
structure Repository where
  numBackends : Nat
  deriving DecidableEq, Repr

/-- A volume, as far as the commands look at it. -/
structure Volume where
  ID : String
  deriving DecidableEq, Repr

/-- A snapshot: identifier, description, `Stats.Errors` (a `uint64`) and the
`Archives` map. -/
structure Snapshot where
  ID : String
  Description : String
  Errors : Nat
  Archives : String → Option Archive

/-! ## Calls that leave the embedded files -/

/-- The calls of `store` and `executeStore` to their collaborators. -/
inductive Call where
  | filepathAbs (target : String)
  | shutdownLock (obtained : Bool)
  | lockRelease
  | openRepository
  | findVolume (volumeID : String)
  | newSnapshot (description : String)
  | openChunkIndex
  | shutdownFirst
  | getwd
  | snapshotAdd (so : KStoreOptions)
  | closeNotifier
  | snapshotSave
  | volumeAddSnapshot
  | chunkIndexSave
  | repositorySave
  deriving DecidableEq, Repr

/-- The answers of the collaborators of `store` and `executeStore`. A lock
answer `false` is `shutdown.Lock()` returning nil; an error answer is the
text of the callee's error, a save answer `none` is a nil error. `progress` is the stream that `snapshot.Add` returns, up to the
close of the channel. -/
structure World where
  abs : String → Except String String
  lock1 : Bool
  openRepository : Except String Repository
  findVolume : String → Except String Volume
  newSnapshot : String → Except String Snapshot
  openChunkIndex : Option String
  getwd : Except String String
  progress : List Step
  lock2 : Bool
  snapshotSave : Option String
  addSnapshot : Option String
  chunkIndexSave : Option String
  repositorySave : Option String

/-! ## store.go -/

/-- `configureStoreOpts`: `repositories` is `cfg.Repositories`, `repoAlias` is
`globalOpts.Alias`, `changed` is `cmd.Flags().Changed`. -/
def configureStoreOpts (repositories : String → Option RepoConfig) (repoAlias : String)
    (changed : String → Bool) (opts : StoreOptions) : StoreOptions :=
  match repositories repoAlias with
  | some rep =>
    let opts := if !changed "compression" then { opts with Compression := rep.Compression } else opts
    let opts := if !changed "encryption" then { opts with Encryption := rep.Encryption } else opts
    let opts := if !changed "tolerance" then { opts with FailureTolerance := rep.Tolerance } else opts
    let opts := if !changed "excludes" then { opts with Excludes := rep.StoreExcludes } else opts
    let opts := if !changed "pedantic" then { opts with Pedantic := rep.Pedantic } else opts
    opts
  | none => opts

/-- `errs[path] = err` on the map `errs`, kept as an association list. -/
def mapSet (m : List (String × Error)) (path : String) (err : Error) : List (String × Error) :=
  match m with
  | [] => [(path, err)]
  | (k, v) :: rest => if k = path then (k, err) :: rest else (k, v) :: mapSet rest path err

/-- The variables the loop of `store` updates: `snapshot.Stats.Errors`, `errs`,
`lastPath` and `items`. The progress bars are rendering only and left out. -/
structure LoopState where
  errors : Nat
  errs : List (String × Error)
  lastPath : String
  items : Nat
  deriving DecidableEq, Repr

/-- How the loop of `store` ends. -/
inductive LoopExit where
  | cancelled
  | failed (e : Error)
  | drained
  deriving DecidableEq, Repr

/-- The part of the loop body after the error branch: `items` and `lastPath`. -/
def advance (st : LoopState) (p : Progress) : LoopState :=
  let items := if p.Path ≠ st.lastPath ∧ st.lastPath ≠ "" then st.items + 1 else st.items
  let lastPath := if p.Path ≠ st.lastPath then p.Path else st.lastPath
  { st with items := items, lastPath := lastPath }

/-- The loop `for p := range progress` of `store`; `pedantic` is the value of
`storeOpts.Pedantic` that the body reads. -/
def storeLoop (pedantic : Bool) : LoopState → List Step → LoopExit × LoopState
  | st, [] => (.drained, st)
  | st, s :: rest =>
    if s.cancel then (.cancelled, st)
    else
      match s.p.Error with
      | some e =>
        if pedantic then (.failed e, st)
        else
          storeLoop pedantic
            (advance { st with errs := mapSet st.errs s.p.Path e,
                               errors := (st.errors + 1) % 2 ^ 64 } s.p) rest
      | none => storeLoop pedantic (advance st s.p) rest

/-- What a run of `store` leaves behind. -/
structure StoreResult where
  err : Option Error
  trace : List Call
  errors : Nat
  errs : List (String × Error)
  deriving DecidableEq, Repr

/-- The three ways out of the loop of `store`: `return nil` after a shutdown
notification (the notifier is closed), `return p.Error` under the pedantic
switch, and `return nil` after the summary when the stream is drained. -/
def storeReturn (so : KStoreOptions) : LoopExit × LoopState → StoreResult
  | (.cancelled, st) =>
    ⟨none, [.shutdownFirst, .getwd, .snapshotAdd so, .closeNotifier], st.errors, st.errs⟩
  | (.failed e, st) =>
    ⟨some e, [.shutdownFirst, .getwd, .snapshotAdd so], st.errors, st.errs⟩
  | (.drained, st) =>
    ⟨none, [.shutdownFirst, .getwd, .snapshotAdd so], st.errors, st.errs⟩

/-- The function `store`. `storeOpts` is the package-level variable of that name,
which the loop body reads; `opts` is the parameter. `w` is the width of `int`
and `uint`. -/
def store (u : Utils) (w : Nat) (storeOpts : StoreOptions) (world : World)
    (repository : Repository) (snapshot : Snapshot) (targets : List String)
    (opts : StoreOptions) : StoreResult :=
  match world.getwd with
  | .error e => ⟨some (.other e), [.shutdownFirst, .getwd], snapshot.Errors, []⟩
  | .ok wd =>
    if wrapInt w ((repository.numBackends : Int) - toInt w opts.FailureTolerance) ≤ 0 then
      ⟨some ErrRedundancyAmount, [.shutdownFirst, .getwd], snapshot.Errors, []⟩
    else
      match u.CompressionTypeFromString opts.Compression with
      | .error e => ⟨some (.other e), [.shutdownFirst, .getwd], snapshot.Errors, []⟩
      | .ok compression =>
        match u.EncryptionTypeFromString opts.Encryption with
        | .error e => ⟨some (.other e), [.shutdownFirst, .getwd], snapshot.Errors, []⟩
        | .ok encryption =>
          let so : KStoreOptions :=
            { CWD := wd
              Paths := targets
              Excludes := opts.Excludes
              Compress := compression
              Encrypt := encryption
              Pedantic := opts.Pedantic
              DataParts :=
                toUint w (wrapInt w ((repository.numBackends : Int) - toInt w opts.FailureTolerance))
              ParityParts := opts.FailureTolerance }
          storeReturn so (storeLoop storeOpts.Pedantic ⟨snapshot.Errors, [], "", 1⟩ world.progress)

/-- The targets of `executeStore`: each argument made absolute when
`filepath.Abs` succeeds, kept as given otherwise. -/
def collectTargets (world : World) (args : List String) : List String :=
  args.map fun target =>
    match world.abs target with
    | .ok absTarget => absTarget
    | .error _ => target

/-- The four persistence calls at the end of `executeStore`, each made only
when the one before returned nil. -/
def persist (world : World) : Option Error × List Call :=
  match world.snapshotSave with
  | some e => (some (.other e), [.snapshotSave])
  | none =>
    match world.addSnapshot with
    | some e => (some (.other e), [.snapshotSave, .volumeAddSnapshot])
    | none =>
      match world.chunkIndexSave with
      | some e => (some (.other e), [.snapshotSave, .volumeAddSnapshot, .chunkIndexSave])
      | none =>
        (world.repositorySave.map Error.other,
          [.snapshotSave, .volumeAddSnapshot, .chunkIndexSave, .repositorySave])

/-- What a run of `executeStore` returns and the calls it made. -/
structure ExecResult where
  err : Option Error
  trace : List Call
  deriving DecidableEq, Repr

/-- The function `executeStore`. The deferred `lock()` runs when the function
returns, after the persistence calls. -/
def executeStore (u : Utils) (w : Nat) (storeOpts : StoreOptions) (world : World)
    (volumeID : String) (args : List String) (opts : StoreOptions) : ExecResult :=
  let targets := collectTargets world args
  let t0 := args.map Call.filepathAbs
  if !world.lock1 then ⟨none, t0 ++ [.shutdownLock false]⟩
  else
    match world.openRepository with
    | .error e => ⟨some (.other e), t0 ++ [.shutdownLock true, .openRepository]⟩
    | .ok repository =>
      match world.findVolume volumeID with
      | .error e => ⟨some (.other e), t0 ++ [.shutdownLock true, .openRepository, .findVolume volumeID]⟩
      | .ok _ =>
        match world.newSnapshot opts.Description with
        | .error e =>
          ⟨some (.other e), t0 ++ [.shutdownLock true, .openRepository, .findVolume volumeID,
            .newSnapshot opts.Description]⟩
        | .ok snapshot =>
          match world.openChunkIndex with
          | some e =>
            ⟨some (.other e), t0 ++ [.shutdownLock true, .openRepository, .findVolume volumeID,
              .newSnapshot opts.Description, .openChunkIndex]⟩
          | none =>
            let t1 := t0 ++ [.shutdownLock true, .openRepository, .findVolume volumeID,
              .newSnapshot opts.Description, .openChunkIndex, .lockRelease]
            let r := store u w storeOpts world repository snapshot targets opts
            match r.err with
            | some e => ⟨some e, t1 ++ r.trace⟩
            | none =>
              if !world.lock2 then ⟨none, t1 ++ r.trace ++ [.shutdownLock false]⟩
              else
                let s := persist world
                ⟨s.1, t1 ++ r.trace ++ [.shutdownLock true] ++ s.2 ++ [.lockRelease]⟩

/-- The persistence calls. -/
def Call.isPersistence : Call → Bool
  | .snapshotSave | .volumeAddSnapshot | .chunkIndexSave | .repositorySave => true
  | _ => false

/-- The calls that open or query something outside the process before the
store begins: repository open, chunk-index open, working-directory query. -/
def Call.isEarlyAccess : Call → Bool
  | .openRepository | .openChunkIndex | .getwd => true
  | _ => false

/-- Scan of a call list with the number of shutdown locks held: every
persistence call must find at least one lock held. -/
def persistsUnderLock : Nat → List Call → Bool
  | _, [] => true
  | held, .shutdownLock true :: cs => persistsUnderLock (held + 1) cs
  | held, .lockRelease :: cs => persistsUnderLock (held - 1) cs
  | held, c :: cs => (!c.isPersistence || decide (0 < held)) && persistsUnderLock held cs

/-- The number of shutdown locks held after the calls `l`, from `held`. -/
def heldAfter : Nat → List Call → Nat
  | held, [] => held
  | held, .shutdownLock true :: cs => heldAfter (held + 1) cs
  | held, .lockRelease :: cs => heldAfter (held - 1) cs
  | held, _ :: cs => heldAfter held cs

/-- No persistence call among the calls `l`. -/
def noPersistence (l : List Call) : Bool :=
  l.all fun c => !c.isPersistence

/-- The number of progress events that carry an error. -/
def errorEvents (l : List Step) : Nat :=
  (l.filter fun s => s.p.Error.isSome).length

/-- The loop state after the events `l`, none of which carries an error. -/
def advanceAll (st : LoopState) (l : List Step) : LoopState :=
  l.foldl (fun st s => advance st s.p) st

/-! ## cat.go -/

/-- The calls of `executeCat` to its collaborators. -/
inductive CatCall where
  | openRepository
  | findSnapshot (snapshotID : String)
  | decodeArchiveData (archive : Archive)
  | stdoutWrite (b : List UInt8)
  deriving DecidableEq, Repr

/-- The answers of the collaborators of `executeCat`: `decodeArchiveData`
gives the bytes of an archive or an error, `stdoutWrite` the error that
`os.Stdout.Write` returns. -/
structure CatWorld where
  openRepository : Except String Repository
  findSnapshot : String → Except String Snapshot
  decodeArchiveData : Repository → Archive → Except String (List UInt8)
  stdoutWrite : List UInt8 → Option String

/-- What a run of `executeCat` returns and the calls it made. -/
structure CatResult where
  err : Option Error
  trace : List CatCall
  deriving DecidableEq, Repr

/-- The function `executeCat`. -/
def executeCat (world : CatWorld) (snapshotID : String) (file : String) : CatResult :=
  match world.openRepository with
  | .error e => ⟨some (.other e), [.openRepository]⟩
  | .ok repository =>
    match world.findSnapshot snapshotID with
    | .error e => ⟨some (.other e), [.openRepository, .findSnapshot snapshotID]⟩
    | .ok snapshot =>
      match snapshot.Archives file with
      | some archive =>
        match world.decodeArchiveData repository archive with
        | .error e =>
          ⟨some (.other e), [.openRepository, .findSnapshot snapshotID, .decodeArchiveData archive]⟩
        | .ok b =>
          ⟨(world.stdoutWrite b).map Error.other,
            [.openRepository, .findSnapshot snapshotID, .decodeArchiveData archive,
              .stdoutWrite b]⟩
      | none => ⟨some (.noSuchFile file), [.openRepository, .findSnapshot snapshotID]⟩

/-- The bytes a run handed to standard output, in order. -/
def stdoutBytes : List CatCall → List UInt8
  | [] => []
  | .stdoutWrite b :: cs => b ++ stdoutBytes cs
  | _ :: cs => stdoutBytes cs

/-! ## onedrive.go -/

/-- Go `url.Userinfo`. -/
structure Userinfo where
  username : String
  password : String
  passwordSet : Bool
  deriving DecidableEq, Repr

/-- Go `url.URL`, as far as `NewBackend` reads it; `User` is a pointer and may
be nil. -/
structure URL where
  User : Option Userinfo
  Path : String
  deriving DecidableEq, Repr

/-- Go `(*Userinfo).Username`, which answers "" on a nil receiver. -/
def Username : Option Userinfo → String
  | none => ""
  | some u => u.username

/-- Go `(*Userinfo).Password`, which answers `("", false)` on a nil receiver. -/
def Password : Option Userinfo → String × Bool
  | none => ("", false)
  | some u => (u.password, u.passwordSet)

/-- The calls of `NewBackend` that reach the user or the network. -/
inductive DriveCall where
  | printf (format : String)
  | printAuthURL (clientID : String) (clientSecret : String)
  | startHttpServer
  | promptCode
  | scanCode
  | exchange (code : String)
  | newStorageFilesystem (path : String)
  deriving DecidableEq, Repr

/-- The answers of the collaborators of `NewBackend`. -/
structure DriveWorld where
  scan : Except String String
  exchange : String → Option String
  newStorageFilesystem : String → Option String

/-- How a run of `NewBackend` ends: it returns a backend (configured or
empty) with an error (or nil), or `log.Fatal` ends the process. -/
inductive DriveOutcome where
  | returned (configured : Bool) (err : Option Error)
  | fatal (err : Error)
  deriving DecidableEq, Repr

/-- What a run of `NewBackend` yields and the calls it made. -/
structure DriveResult where
  outcome : DriveOutcome
  trace : List DriveCall
  deriving DecidableEq, Repr

/-- The method `OnedriveStorage.NewBackend`. -/
def NewBackend (world : DriveWorld) (u : URL) : DriveResult :=
  let t0 := [DriveCall.printf (Username u.User)]
  if u.User = none ∨ Username u.User = "" then
    ⟨.returned false (some ErrInvalidUsername), t0⟩
  else
    match Password u.User with
    | (_, false) => ⟨.returned false (some ErrInvalidPassword), t0⟩
    | (pw, true) =>
      let t1 := t0 ++ [.printAuthURL (Username u.User) pw, .startHttpServer, .promptCode,
        .scanCode]
      match world.scan with
      | .error e => ⟨.fatal (.other e), t1⟩
      | .ok code =>
        match world.exchange code with
        | some e => ⟨.fatal (.other e), t1 ++ [.exchange code]⟩
        | none =>
          match world.newStorageFilesystem u.Path with
          | some e =>
            ⟨.returned false (some (.other e)), t1 ++ [.exchange code, .newStorageFilesystem u.Path]⟩
          | none =>
            ⟨.returned true none, t1 ++ [.exchange code, .newStorageFilesystem u.Path]⟩

/-! ## Sample inputs -/

/-- Options with every text empty, tolerance `t` and the given pedantic flag. -/
def sampleOpts (t : Nat) (pedantic : Bool) : StoreOptions :=
  ⟨"", "", "", t, [], pedantic⟩

/-- A world in which every collaborator succeeds: `n` backends, the progress
stream `progress`. -/
def sampleWorld (n : Nat) (progress : List Step) : World where
  abs := fun target => .ok target
  lock1 := true
  openRepository := .ok ⟨n⟩
  findVolume := fun volumeID => .ok ⟨volumeID⟩
  newSnapshot := fun description => .ok ⟨"snap", description, 0, fun _ => none⟩
  openChunkIndex := none
  getwd := .ok "/"
  progress := progress
  lock2 := true
  snapshotSave := none
  addSnapshot := none
  chunkIndexSave := none
  repositorySave := none

/-- A fresh snapshot, as `knoxite.NewSnapshot` makes it. -/
def sampleSnapshot : Snapshot :=
  ⟨"snap", "", 0, fun _ => none⟩

/-- Two files, the second unreadable, then a third. -/
def sampleStream : List Step :=
  [⟨false, ⟨"/a", none⟩⟩, ⟨false, ⟨"/b", some (.other "permission denied")⟩⟩,
    ⟨false, ⟨"/c", none⟩⟩]

/-- The options `store` builds for one parity part out of three backends. -/
def sampleParts : KStoreOptions :=
  ⟨"/", [], [], .none, .aes, false, 2, 1⟩

/-- Options with an unknown compression name, tolerance one. -/
def sampleBadOpts : StoreOptions :=
  ⟨"", "bogus", "", 1, [], false⟩

/-- A snapshot holding the archive of "/a" only. -/
def sampleCatSnapshot : Snapshot :=
  ⟨"snap", "", 0, fun file => if file = "/a" then some ⟨"/a"⟩ else none⟩

/-- A world for `executeCat`: the repository opens, every snapshot identifier
finds `sampleCatSnapshot`, every archive decodes to the bytes of "hi", and
writing succeeds. -/
def sampleCatWorld : CatWorld where
  openRepository := .ok ⟨1⟩
  findSnapshot := fun _ => .ok sampleCatSnapshot
  decodeArchiveData := fun _ _ => .ok [104, 105]
  stdoutWrite := fun _ => none

/-- A world for `NewBackend` in which the user types "code" and every callee
succeeds. -/
def sampleDriveWorld : DriveWorld :=
  ⟨.ok "code", fun _ => none, fun _ => none⟩

/-! ## Machine integers: the in-range case -/

theorem two_pow_split (w : Nat) (hw : 0 < w) : 2 ^ w = 2 * 2 ^ (w - 1) := by
  obtain ⟨k, rfl⟩ : ∃ k, w = k + 1 := ⟨w - 1, by omega⟩
  simp [pow_succ, Nat.mul_comm]

theorem toInt_of_lt (w x : Nat) (hw : 0 < w) (hx : x < 2 ^ (w - 1)) : toInt w x = (x : Int) := by
  have h2 := two_pow_split w hw
  have hlt : x < 2 ^ w := by omega
  simp [toInt, Nat.mod_eq_of_lt hlt, hx]

theorem wrapInt_of_range (w : Nat) (z : Int) (hw : 0 < w)
    (hlo : -((2 ^ (w - 1) : Nat) : Int) ≤ z) (hhi : z < ((2 ^ (w - 1) : Nat) : Int)) :
    wrapInt w z = z := by
  have h2 : ((2 ^ w : Nat) : Int) = 2 * ((2 ^ (w - 1) : Nat) : Int) := by
    rw [two_pow_split w hw]; push_cast; ring
  unfold wrapInt
  rcases lt_or_le z 0 with hneg | hpos
  · have hm : z % ((2 ^ w : Nat) : Int) = z + ((2 ^ w : Nat) : Int) := by
      rw [← Int.add_emod_self]
      exact Int.emod_eq_of_lt (by omega) (by omega)
    rw [hm, if_neg (by omega)]
    omega
  · have hm : z % ((2 ^ w : Nat) : Int) = z := Int.emod_eq_of_lt hpos (by omega)
    rw [hm, if_pos hhi]

/-- In range (`n` and `T` below `2^(w-1)`) the guard expression of `store` is the
exact difference. -/
theorem guard_exact (w n T : Nat) (hw : 0 < w) (hn : n < 2 ^ (w - 1)) (hT : T < 2 ^ (w - 1)) :
    wrapInt w ((n : Int) - toInt w T) = (n : Int) - (T : Int) := by
  rw [toInt_of_lt w T hw hT]
  apply wrapInt_of_range w _ hw <;> omega

theorem toUint_of_nonneg (w : Nat) (z : Int) (hz : 0 ≤ z) (hlt : z < ((2 ^ w : Nat) : Int)) :
    toUint w z = z.toNat := by
  unfold toUint
  rw [Int.emod_eq_of_lt hz hlt]

/-! ## store: the redundancy guard -/

theorem storeReturn_add (so so' : KStoreOptions) (x : LoopExit × LoopState)
    (h : Call.snapshotAdd so ∈ (storeReturn so' x).trace) : so' = so := by
  obtain ⟨exit, st⟩ := x
  cases exit <;> simp [storeReturn] at h <;> exact h.symm

/-- While tolerance and backend count are below `2^(w-1)`, a tolerance of at
least the backend count makes `store` return `ErrRedundancyAmount` without
calling `snapshot.Add`. -/
theorem store_guard_in_range (u : Utils) (w : Nat) (storeOpts : StoreOptions) (world : World)
    (repository : Repository) (snapshot : Snapshot) (targets : List String)
    (opts : StoreOptions) (wd : String) (hwd : world.getwd = .ok wd) (hw : 0 < w)
    (hn : repository.numBackends < 2 ^ (w - 1)) (hT : opts.FailureTolerance < 2 ^ (w - 1))
    (h : repository.numBackends ≤ opts.FailureTolerance) :
    store u w storeOpts world repository snapshot targets opts =
      ⟨some ErrRedundancyAmount, [.shutdownFirst, .getwd], snapshot.Errors, []⟩ := by
  have hg := guard_exact w repository.numBackends opts.FailureTolerance hw hn hT
  unfold store
  rw [hwd]
  simp only [hg]
  rw [if_pos (by omega)]

/-- Claim C1, at the input where it fails: with one backend and failure
tolerance `2^64 - 1` on a 64-bit platform, `int(opts.FailureTolerance)` is
`-1`, the guard expression is `2`, and `store` does not return
`ErrRedundancyAmount` but calls `snapshot.Add` (with two data parts and
`2^64 - 1` parity parts) although the tolerance exceeds the backend count. -/
theorem store_guard_wraps :
    (1 : Nat) ≤ (sampleOpts (2 ^ 64 - 1) false).FailureTolerance ∧
    toInt 64 (sampleOpts (2 ^ 64 - 1) false).FailureTolerance = -1 ∧
    (store specUtils 64 (sampleOpts 0 false) (sampleWorld 1 []) ⟨1⟩ sampleSnapshot []
        (sampleOpts (2 ^ 64 - 1) false)).err = none ∧
    (store specUtils 64 (sampleOpts 0 false) (sampleWorld 1 []) ⟨1⟩ sampleSnapshot []
        (sampleOpts (2 ^ 64 - 1) false)).trace =
      [.shutdownFirst, .getwd,
        .snapshotAdd ⟨"/", [], [], .none, .aes, false, 2, 2 ^ 64 - 1⟩] := by
  refine ⟨by decide, by decide, by decide, by decide⟩

/-- While tolerance and backend count are below `2^(w-1)`, the options that
`store` hands to `snapshot.Add` have `ParityParts = T`, `DataParts = n - T`,
at least one data part, and `DataParts + ParityParts = n`. -/
theorem store_parts_in_range (u : Utils) (w : Nat) (storeOpts : StoreOptions) (world : World)
    (repository : Repository) (snapshot : Snapshot) (targets : List String)
    (opts : StoreOptions) (so : KStoreOptions) (hw : 0 < w)
    (hn : repository.numBackends < 2 ^ (w - 1)) (hT : opts.FailureTolerance < 2 ^ (w - 1))
    (h : Call.snapshotAdd so ∈ (store u w storeOpts world repository snapshot targets opts).trace) :
    so.ParityParts = opts.FailureTolerance ∧
    so.DataParts = repository.numBackends - opts.FailureTolerance ∧
    1 ≤ so.DataParts ∧
    so.DataParts + so.ParityParts = repository.numBackends := by
  have hg := guard_exact w repository.numBackends opts.FailureTolerance hw hn hT
  have h2 := two_pow_split w hw
  unfold store at h
  simp only [hg] at h
  split at h
  · simp at h
  · split at h
    · simp at h
    · rename_i hgt
      have hpos : (0 : Int) < (repository.numBackends : Int) - (opts.FailureTolerance : Int) := by
        omega
      have hu : toUint w ((repository.numBackends : Int) - (opts.FailureTolerance : Int)) =
          repository.numBackends - opts.FailureTolerance := by
        rw [toUint_of_nonneg w _ (by omega) (by omega)]
        omega
      split at h
      · simp at h
      · split at h
        · simp at h
        · have hso := storeReturn_add so _ _ h
          subst hso
          dsimp only
          rw [hu]
          omega

/-- Claim C2, at the input where it fails: with three backends and failure
tolerance `2^64 - 1` on a 64-bit platform the guard is passed and the options
handed to `snapshot.Add` have `DataParts = 4` and `ParityParts = 2^64 - 1`,
whose sum exceeds the three configured backends. -/
theorem store_parts_wrap :
    (store specUtils 64 (sampleOpts 0 false) (sampleWorld 3 []) ⟨3⟩ sampleSnapshot []
        (sampleOpts (2 ^ 64 - 1) false)).trace =
      [.shutdownFirst, .getwd,
        .snapshotAdd ⟨"/", [], [], .none, .aes, false, 4, 2 ^ 64 - 1⟩] ∧
    3 < 4 + (2 ^ 64 - 1) := by
  refine ⟨by decide, by decide⟩

/-! ## store: the progress loop -/

theorem mapSet_mem_self (m : List (String × Error)) (path : String) (err : Error) :
    (path, err) ∈ mapSet m path err := by
  induction m with
  | nil => simp [mapSet]
  | cons kv rest ih =>
    obtain ⟨k, v⟩ := kv
    unfold mapSet
    by_cases hk : k = path
    · simp [hk]
    · simp [hk, ih]

theorem mapSet_keeps_keys (m : List (String × Error)) (path : String) (err : Error)
    (k : String) (v : Error) (h : (k, v) ∈ m) : ∃ v', (k, v') ∈ mapSet m path err := by
  induction m with
  | nil => simp at h
  | cons kv rest ih =>
    obtain ⟨k0, v0⟩ := kv
    unfold mapSet
    by_cases hk : k0 = path
    · rw [if_pos hk]
      rcases List.mem_cons.mp h with heq | hmem
      · obtain ⟨rfl, rfl⟩ := Prod.mk.inj heq
        exact ⟨err, List.mem_cons_self _ _⟩
      · exact ⟨v, List.mem_cons_of_mem _ hmem⟩
    · rw [if_neg hk]
      rcases List.mem_cons.mp h with heq | hmem
      · exact ⟨v, by rw [heq]; exact List.mem_cons_self _ _⟩
      · obtain ⟨v', hv'⟩ := ih hmem
        exact ⟨v', List.mem_cons_of_mem _ hv'⟩

theorem advance_errs (st : LoopState) (p : Progress) : (advance st p).errs = st.errs := rfl

theorem advance_errors (st : LoopState) (p : Progress) : (advance st p).errors = st.errors := rfl

theorem errorEvents_cons_some (s : Step) (l : List Step) (e : Error) (h : s.p.Error = some e) :
    errorEvents (s :: l) = errorEvents l + 1 := by
  simp [errorEvents, h]

theorem errorEvents_cons_none (s : Step) (l : List Step) (h : s.p.Error = none) :
    errorEvents (s :: l) = errorEvents l := by
  simp [errorEvents, h]

/-- The loop without the pedantic switch and without a shutdown notification:
it drains the stream, counts every failing event and keeps every failing path. -/
theorem storeLoop_collect (l : List Step) :
    ∀ st : LoopState, (∀ s ∈ l, s.cancel = false) →
      (storeLoop false st l).1 = .drained ∧
      (storeLoop false st l).2.errors % 2 ^ 64 = (st.errors + errorEvents l) % 2 ^ 64 ∧
      (st.errors + errorEvents l < 2 ^ 64 →
        (storeLoop false st l).2.errors = st.errors + errorEvents l) ∧
      (∀ k v, (k, v) ∈ st.errs → ∃ v', (k, v') ∈ (storeLoop false st l).2.errs) ∧
      (∀ s ∈ l, ∀ e, s.p.Error = some e →
        ∃ e', (s.p.Path, e') ∈ (storeLoop false st l).2.errs) := by
  induction l with
  | nil =>
    intro st _
    refine ⟨rfl, by simp [storeLoop, errorEvents], by simp [storeLoop, errorEvents], ?_, ?_⟩
    · intro k v h
      exact ⟨v, h⟩
    · intro s hs
      simp at hs
  | cons s rest ih =>
    intro st hrun
    have hc : s.cancel = false := hrun s (List.mem_cons_self _ _)
    have hrest : ∀ t ∈ rest, t.cancel = false := fun t ht => hrun t (List.mem_cons_of_mem _ ht)
    cases herr : s.p.Error with
    | none =>
      have hstep : storeLoop false st (s :: rest) = storeLoop false (advance st s.p) rest := by
        simp [storeLoop, hc, herr]
      obtain ⟨h1, h2, h3, h4, h5⟩ := ih (advance st s.p) hrest
      rw [hstep, errorEvents_cons_none s rest herr]
      refine ⟨h1, h2, h3, h4, ?_⟩
      intro t ht e hte
      rcases List.mem_cons.mp ht with rfl | hmem
      · rw [herr] at hte
        cases hte
      · exact h5 t hmem e hte
    | some e0 =>
      have hstep : storeLoop false st (s :: rest) =
          storeLoop false
            (advance { st with errs := mapSet st.errs s.p.Path e0,
                               errors := (st.errors + 1) % 2 ^ 64 } s.p) rest := by
        simp [storeLoop, hc, herr]
      obtain ⟨h1, h2, h3, h4, h5⟩ :=
        ih (advance { st with errs := mapSet st.errs s.p.Path e0,
                              errors := (st.errors + 1) % 2 ^ 64 } s.p) hrest
      rw [hstep, errorEvents_cons_some s rest e0 herr]
      rw [advance_errs] at h4
      rw [advance_errors] at h2 h3
      dsimp only at h2 h3 h4
      refine ⟨h1, ?_, ?_, ?_, ?_⟩
      · rw [h2]
        omega
      · intro hlt
        have hsmall : (st.errors + 1) % 2 ^ 64 = st.errors + 1 := Nat.mod_eq_of_lt (by omega)
        rw [h3 (by rw [hsmall]; omega), hsmall]
        omega
      · intro k v hkv
        obtain ⟨v1, hv1⟩ := mapSet_keeps_keys st.errs s.p.Path e0 k v hkv
        exact h4 k v1 hv1
      · intro t ht e hte
        rcases List.mem_cons.mp ht with rfl | hmem
        · exact h4 t.p.Path e0 (mapSet_mem_self st.errs t.p.Path e0)
        · exact h5 t hmem e hte

/-- Events without error and without a shutdown notification only move the
loop forward. -/
theorem storeLoop_quiet (pedantic : Bool) (pre rest : List Step) :
    ∀ st : LoopState, (∀ s ∈ pre, s.cancel = false ∧ s.p.Error = none) →
      storeLoop pedantic st (pre ++ rest) = storeLoop pedantic (advanceAll st pre) rest := by
  induction pre with
  | nil =>
    intro st _
    rfl
  | cons s pre ih =>
    intro st h
    obtain ⟨hc, he⟩ := h s (List.mem_cons_self _ _)
    have hstep : storeLoop pedantic st (s :: (pre ++ rest)) =
        storeLoop pedantic (advance st s.p) (pre ++ rest) := by
      simp [storeLoop, hc, he]
    rw [List.cons_append, hstep, ih (advance st s.p) fun t ht => h t (List.mem_cons_of_mem _ ht)]
    rfl

/-- With the pedantic switch read as set, the loop stops at the first failing
event that no shutdown notification overtakes, whatever follows it. -/
theorem storeLoop_pedantic (pre rest : List Step) (step : Step) (e : Error) (st : LoopState)
    (hpre : ∀ s ∈ pre, s.cancel = false ∧ s.p.Error = none)
    (hc : step.cancel = false) (he : step.p.Error = some e) :
    storeLoop true st (pre ++ step :: rest) = (.failed e, advanceAll st pre) := by
  rw [storeLoop_quiet true pre (step :: rest) st hpre]
  simp [storeLoop, hc, he]

/-! ## store: from the guard to the loop -/

/-- A run of `store` that calls `snapshot.Add` got past the working-directory
query, the guard and both helpers, and ends the way its loop ends. -/
theorem store_of_add (u : Utils) (w : Nat) (storeOpts : StoreOptions) (world : World)
    (repository : Repository) (snapshot : Snapshot) (targets : List String)
    (opts : StoreOptions) (so : KStoreOptions)
    (h : Call.snapshotAdd so ∈ (store u w storeOpts world repository snapshot targets opts).trace) :
    store u w storeOpts world repository snapshot targets opts =
      storeReturn so (storeLoop storeOpts.Pedantic ⟨snapshot.Errors, [], "", 1⟩ world.progress) := by
  unfold store at h ⊢
  cases hwd : world.getwd with
  | error e => simp [hwd] at h
  | ok wd =>
    simp only [hwd] at h ⊢
    by_cases hg : wrapInt w ((repository.numBackends : Int) - toInt w opts.FailureTolerance) ≤ 0
    · simp [hg] at h
    · simp only [hg, if_false] at h ⊢
      cases hc : u.CompressionTypeFromString opts.Compression with
      | error e => simp [hc] at h
      | ok compression =>
        simp only [hc] at h ⊢
        cases he : u.EncryptionTypeFromString opts.Encryption with
        | error e => simp [he] at h
        | ok encryption =>
          simp only [he] at h ⊢
          rw [storeReturn_add so _ _ h]

/-- The result of `store` depends on the progress stream only through the loop. -/
theorem store_of_add_stream (u : Utils) (w : Nat) (storeOpts : StoreOptions) (world : World)
    (repository : Repository) (snapshot : Snapshot) (targets : List String)
    (opts : StoreOptions) (so : KStoreOptions) (stream : List Step)
    (h : Call.snapshotAdd so ∈ (store u w storeOpts world repository snapshot targets opts).trace) :
    store u w storeOpts { world with progress := stream } repository snapshot targets opts =
      storeReturn so (storeLoop storeOpts.Pedantic ⟨snapshot.Errors, [], "", 1⟩ stream) := by
  unfold store at h ⊢
  cases hwd : world.getwd with
  | error e => simp [hwd] at h
  | ok wd =>
    simp only [hwd] at h ⊢
    by_cases hg : wrapInt w ((repository.numBackends : Int) - toInt w opts.FailureTolerance) ≤ 0
    · simp [hg] at h
    · simp only [hg, if_false] at h ⊢
      cases hc : u.CompressionTypeFromString opts.Compression with
      | error e => simp [hc] at h
      | ok compression =>
        simp only [hc] at h ⊢
        cases he : u.EncryptionTypeFromString opts.Encryption with
        | error e => simp [he] at h
        | ok encryption =>
          simp only [he] at h ⊢
          rw [storeReturn_add so _ _ h]

/-! ## store: the pedantic switch -/

/-- Claim C3 as stated fails: the options passed to `store` and the
package-level `storeOpts` both have `Pedantic` set and the only progress
event carries an error, but a shutdown notification is ready when the event
is received, so `store` closes the notifier and returns nil, not the error. -/
theorem store_pedantic_cancelled :
    (sampleOpts 1 true).Pedantic = true ∧
    store specUtils 64 (sampleOpts 1 true)
        (sampleWorld 3 [⟨true, ⟨"/b", some (.other "permission denied")⟩⟩]) ⟨3⟩
        sampleSnapshot [] (sampleOpts 1 true) =
      ⟨none, [.shutdownFirst, .getwd,
        .snapshotAdd ⟨"/", [], [], .none, .aes, true, 2, 1⟩, .closeNotifier], 0, []⟩ := by
  refine ⟨by decide, by decide⟩

/-- The loop reads `Pedantic` from the package-level `storeOpts`: with
`Pedantic` set in the options passed to `store` (and handed on to
`snapshot.Add`) but unset in `storeOpts`, the failing event is counted and
`store` carries on and returns nil. -/
theorem store_reads_package_pedantic :
    store specUtils 64 (sampleOpts 1 false) (sampleWorld 3 sampleStream) ⟨3⟩
        sampleSnapshot [] (sampleOpts 1 true) =
      ⟨none, [.shutdownFirst, .getwd,
        .snapshotAdd ⟨"/", [], [], .none, .aes, true, 2, 1⟩], 1,
        [("/b", .other "permission denied")]⟩ := by
  decide

/-- Claim C3 as amended: when the options passed to `store` have `Pedantic`
set, the package-level `storeOpts` agrees with them on `Pedantic`, and no
shutdown notification is ready up to and including the first progress event
that carries an error, `store` returns exactly that error, and its whole
result is the one of the stream cut off after that event, so that no later
event is processed. -/
theorem store_pedantic_first_error (u : Utils) (w : Nat) (storeOpts : StoreOptions)
    (world : World) (repository : Repository) (snapshot : Snapshot) (targets : List String)
    (opts : StoreOptions) (so : KStoreOptions) (pre : List Step) (step : Step)
    (rest : List Step) (e : Error)
    (hped : opts.Pedantic = true) (hsame : storeOpts.Pedantic = opts.Pedantic)
    (hadd : Call.snapshotAdd so ∈
      (store u w storeOpts world repository snapshot targets opts).trace)
    (hstream : world.progress = pre ++ step :: rest)
    (hpre : ∀ s ∈ pre, s.cancel = false ∧ s.p.Error = none)
    (hc : step.cancel = false) (he : step.p.Error = some e) :
    (store u w storeOpts world repository snapshot targets opts).err = some e ∧
    store u w storeOpts world repository snapshot targets opts =
      store u w storeOpts { world with progress := pre ++ [step] } repository snapshot
        targets opts := by
  have hp : storeOpts.Pedantic = true := by rw [hsame, hped]
  have hcut := store_of_add_stream u w storeOpts world repository snapshot targets opts so
    (pre ++ [step]) hadd
  rw [hcut, store_of_add u w storeOpts world repository snapshot targets opts so hadd, hstream,
    hp, storeLoop_pedantic pre rest step e _ hpre hc he,
    storeLoop_pedantic pre [] step e _ hpre hc he]
  exact ⟨rfl, rfl⟩

/-- Claim C3 as amended, at three backends, tolerance one and a stream whose
second event fails. -/
theorem store_pedantic_first_error_witness :
    (store specUtils 64 (sampleOpts 1 true) (sampleWorld 3 sampleStream) ⟨3⟩ sampleSnapshot []
        (sampleOpts 1 true)).err = some (.other "permission denied") ∧
    store specUtils 64 (sampleOpts 1 true) (sampleWorld 3 sampleStream) ⟨3⟩ sampleSnapshot []
        (sampleOpts 1 true) =
      store specUtils 64 (sampleOpts 1 true)
        { sampleWorld 3 sampleStream with
          progress := [⟨false, ⟨"/a", none⟩⟩] ++
            [⟨false, ⟨"/b", some (.other "permission denied")⟩⟩] }
        ⟨3⟩ sampleSnapshot [] (sampleOpts 1 true) :=
  store_pedantic_first_error specUtils 64 (sampleOpts 1 true) (sampleWorld 3 sampleStream) ⟨3⟩
    sampleSnapshot [] (sampleOpts 1 true) ⟨"/", [], [], .none, .aes, true, 2, 1⟩
    [⟨false, ⟨"/a", none⟩⟩] ⟨false, ⟨"/b", some (.other "permission denied")⟩⟩
    [⟨false, ⟨"/c", none⟩⟩] (.other "permission denied") rfl rfl (by decide) rfl (by decide)
    rfl rfl

/-- Claim C4: in a run of `store` in which `Pedantic` is unset (the loop reads
it from the package-level `storeOpts`, the value the store command passes as
options) and no shutdown notification arrives, the loop ends by the close of
the progress stream and `store` returns nil without closing the notifier;
`snapshot.Stats.Errors` grows by the number of events that carry an error
(modulo `2^64`, exactly when the sum stays below `2^64`); and every path of a
failing event has an entry in `errs`, from which the final summary is
printed. -/
theorem store_collects_errors (u : Utils) (w : Nat) (storeOpts : StoreOptions)
    (world : World) (repository : Repository) (snapshot : Snapshot) (targets : List String)
    (opts : StoreOptions) (so : KStoreOptions)
    (hped : storeOpts.Pedantic = false)
    (hadd : Call.snapshotAdd so ∈
      (store u w storeOpts world repository snapshot targets opts).trace)
    (hrun : ∀ s ∈ world.progress, s.cancel = false) :
    (storeLoop storeOpts.Pedantic ⟨snapshot.Errors, [], "", 1⟩ world.progress).1 = .drained ∧
    (store u w storeOpts world repository snapshot targets opts).err = none ∧
    (store u w storeOpts world repository snapshot targets opts).trace =
      [.shutdownFirst, .getwd, .snapshotAdd so] ∧
    (store u w storeOpts world repository snapshot targets opts).errors % 2 ^ 64 =
      (snapshot.Errors + errorEvents world.progress) % 2 ^ 64 ∧
    (snapshot.Errors + errorEvents world.progress < 2 ^ 64 →
      (store u w storeOpts world repository snapshot targets opts).errors =
        snapshot.Errors + errorEvents world.progress) ∧
    (∀ s ∈ world.progress, ∀ e, s.p.Error = some e →
      ∃ e', (s.p.Path, e') ∈
        (store u w storeOpts world repository snapshot targets opts).errs) := by
  obtain ⟨h1, h2, h3, _, h5⟩ :=
    storeLoop_collect world.progress ⟨snapshot.Errors, [], "", 1⟩ hrun
  rw [store_of_add u w storeOpts world repository snapshot targets opts so hadd, hped]
  generalize storeLoop false ⟨snapshot.Errors, [], "", 1⟩ world.progress = x at h1 h2 h3 h5
  obtain ⟨exit, st⟩ := x
  simp only at h1
  subst h1
  exact ⟨rfl, rfl, rfl, h2, h3, h5⟩

/-- Claim C4 at two files of which the second is unreadable (and a third):
`store` returns nil and `Stats.Errors` goes from 0 to 1. -/
theorem store_collects_errors_witness :
    (store specUtils 64 (sampleOpts 1 false) (sampleWorld 3 sampleStream) ⟨3⟩ sampleSnapshot []
        (sampleOpts 1 false)).err = none ∧
    (store specUtils 64 (sampleOpts 1 false) (sampleWorld 3 sampleStream) ⟨3⟩ sampleSnapshot []
        (sampleOpts 1 false)).errors = 0 + 1 :=
  have h := store_collects_errors specUtils 64 (sampleOpts 1 false)
    (sampleWorld 3 sampleStream) ⟨3⟩ sampleSnapshot [] (sampleOpts 1 false) sampleParts rfl
    (by decide) (by decide)
  ⟨h.2.1, h.2.2.2.2.1 (by decide)⟩

/-! ## executeStore: call lists -/

theorem persistsUnderLock_append (l r : List Call) :
    ∀ held, persistsUnderLock held (l ++ r) =
      (persistsUnderLock held l && persistsUnderLock (heldAfter held l) r) := by
  induction l with
  | nil => intro held; simp [persistsUnderLock, heldAfter]
  | cons c l ih =>
    intro held
    cases c with
    | shutdownLock obtained =>
      cases obtained <;>
        simp [persistsUnderLock, heldAfter, ih, Call.isPersistence]
    | _ => simp [persistsUnderLock, heldAfter, ih, Call.isPersistence, Bool.and_assoc]

theorem persistsUnderLock_of_noPersistence (l : List Call) :
    ∀ held, noPersistence l = true → persistsUnderLock held l = true := by
  induction l with
  | nil => intro held _; simp [persistsUnderLock]
  | cons c l ih =>
    intro held h
    have hl : noPersistence l = true := by
      simp [noPersistence] at h ⊢
      exact h.2
    cases c with
    | shutdownLock obtained =>
      cases obtained <;> simp [persistsUnderLock, ih _ hl, Call.isPersistence]
    | snapshotSave => simp [noPersistence, Call.isPersistence] at h
    | volumeAddSnapshot => simp [noPersistence, Call.isPersistence] at h
    | chunkIndexSave => simp [noPersistence, Call.isPersistence] at h
    | repositorySave => simp [noPersistence, Call.isPersistence] at h
    | _ => simp [persistsUnderLock, ih _ hl, Call.isPersistence]

theorem noPersistence_mem (l : List Call) (h : noPersistence l = true) (c : Call) (hc : c ∈ l) :
    c.isPersistence = false := by
  simp [noPersistence] at h
  exact h c hc

theorem noPersistence_filter (l : List Call) (h : noPersistence l = true) :
    l.filter Call.isPersistence = [] := by
  rw [List.filter_eq_nil_iff]
  intro c hc
  simp [noPersistence_mem l h c hc]

/-- The calls of `store` are the notifier, the working-directory query and,
past the guard, `snapshot.Add`; none is a persistence call. -/
theorem store_noPersistence (u : Utils) (w : Nat) (storeOpts : StoreOptions) (world : World)
    (repository : Repository) (snapshot : Snapshot) (targets : List String)
    (opts : StoreOptions) :
    noPersistence (store u w storeOpts world repository snapshot targets opts).trace = true := by
  unfold store
  split
  · rfl
  · split
    · rfl
    · split
      · rfl
      · split
        · rfl
        · generalize storeLoop _ _ _ = x
          obtain ⟨exit, st⟩ := x
          cases exit <;> rfl

/-- The persistence calls made under the second lock: a beginning of the four
calls in order, cut after the first one that fails. -/
theorem persist_cases (world : World) :
    (∃ e, world.snapshotSave = some e ∧ persist world = (some (.other e), [.snapshotSave])) ∨
    (∃ e, world.snapshotSave = none ∧ world.addSnapshot = some e ∧
      persist world = (some (.other e), [.snapshotSave, .volumeAddSnapshot])) ∨
    (∃ e, world.snapshotSave = none ∧ world.addSnapshot = none ∧
      world.chunkIndexSave = some e ∧
      persist world = (some (.other e), [.snapshotSave, .volumeAddSnapshot, .chunkIndexSave])) ∨
    (world.snapshotSave = none ∧ world.addSnapshot = none ∧ world.chunkIndexSave = none ∧
      persist world = (world.repositorySave.map Error.other,
        [.snapshotSave, .volumeAddSnapshot, .chunkIndexSave, .repositorySave])) := by
  unfold persist
  cases h1 : world.snapshotSave with
  | some e => exact Or.inl ⟨e, rfl, rfl⟩
  | none =>
    cases h2 : world.addSnapshot with
    | some e => exact Or.inr (Or.inl ⟨e, rfl, rfl, rfl⟩)
    | none =>
      cases h3 : world.chunkIndexSave with
      | some e => exact Or.inr (Or.inr (Or.inl ⟨e, rfl, rfl, rfl, rfl⟩))
      | none => exact Or.inr (Or.inr (Or.inr ⟨rfl, rfl, rfl, rfl⟩))

/-- The calls of `executeStore`: a stretch without persistence call, then
either nothing more, or (both locks obtained) the second lock, the persistence
calls and the deferred release. -/
theorem executeStore_shape (u : Utils) (w : Nat) (storeOpts : StoreOptions) (world : World)
    (volumeID : String) (args : List String) (opts : StoreOptions) :
    ∃ pre, noPersistence pre = true ∧
      ((executeStore u w storeOpts world volumeID args opts).trace = pre ∨
        (world.lock1 = true ∧ world.lock2 = true ∧
          (executeStore u w storeOpts world volumeID args opts).trace =
            pre ++ (Call.shutdownLock true :: ((persist world).2 ++ [Call.lockRelease])))) := by
  have hst := fun repository snapshot =>
    store_noPersistence u w storeOpts world repository snapshot (collectTargets world args) opts
  unfold executeStore
  dsimp only
  by_cases h1 : world.lock1 = true
  swap
  · simp only [h1]
    exact ⟨_, by simp [noPersistence, List.all_append, List.all_map, Call.isPersistence],
      Or.inl rfl⟩
  · simp only [h1, Bool.not_true, Bool.false_eq_true, if_false, true_and]
    cases world.openRepository with
    | error e =>
      exact ⟨_, by simp [noPersistence, List.all_append, List.all_map, Call.isPersistence],
        Or.inl rfl⟩
    | ok repository =>
      cases world.findVolume volumeID with
      | error e =>
        exact ⟨_, by simp [noPersistence, List.all_append, List.all_map, Call.isPersistence],
          Or.inl rfl⟩
      | ok volume =>
        cases world.newSnapshot opts.Description with
        | error e =>
          exact ⟨_, by simp [noPersistence, List.all_append, List.all_map, Call.isPersistence],
            Or.inl rfl⟩
        | ok snapshot =>
          cases world.openChunkIndex with
          | some e =>
            exact ⟨_, by simp [noPersistence, List.all_append, List.all_map, Call.isPersistence],
              Or.inl rfl⟩
          | none =>
            have hs := hst repository snapshot
            simp only [noPersistence] at hs
            dsimp only
            generalize store u w storeOpts world repository snapshot
              (collectTargets world args) opts = r at hs ⊢
            obtain ⟨err, trace, errors, errs⟩ := r
            cases err with
            | some e =>
              exact ⟨_, by
                simp [noPersistence, List.all_append, List.all_map, Call.isPersistence]
                simpa using hs, Or.inl rfl⟩
            | none =>
              by_cases h2 : world.lock2 = true
              swap
              · simp only [h2]
                exact ⟨_, by
                  simp [noPersistence, List.all_append, List.all_map, Call.isPersistence]
                  simpa using hs, Or.inl rfl⟩
              · simp only [h2, Bool.not_true, Bool.false_eq_true, if_false, true_and]
                refine ⟨args.map Call.filepathAbs ++ [.shutdownLock true, .openRepository,
                  .findVolume volumeID, .newSnapshot opts.Description, .openChunkIndex,
                  .lockRelease] ++ trace, ?_, Or.inr ?_⟩
                · simp [noPersistence, List.all_append, List.all_map, Call.isPersistence]
                  simpa using hs
                · simp

/-! ## executeStore: errors of store, locks, configuration errors -/

/-- Claim C5: when `executeStore` gets as far as `store` and `store` returns an
error, `executeStore` returns that same error and makes none of the calls
`snapshot.Save`, `volume.AddSnapshot`, `chunkIndex.Save`, `repository.Save`. -/
theorem executeStore_store_error (u : Utils) (w : Nat) (storeOpts : StoreOptions)
    (world : World) (volumeID : String) (args : List String) (opts : StoreOptions)
    (repository : Repository) (volume : Volume) (snapshot : Snapshot) (e : Error)
    (hlock : world.lock1 = true) (hrepo : world.openRepository = .ok repository)
    (hvol : world.findVolume volumeID = .ok volume)
    (hsnap : world.newSnapshot opts.Description = .ok snapshot)
    (hidx : world.openChunkIndex = none)
    (herr : (store u w storeOpts world repository snapshot (collectTargets world args)
      opts).err = some e) :
    (executeStore u w storeOpts world volumeID args opts).err = some e ∧
    (∀ c ∈ (executeStore u w storeOpts world volumeID args opts).trace,
      c.isPersistence = false) := by
  have hs := store_noPersistence u w storeOpts world repository snapshot
    (collectTargets world args) opts
  have htrace : (executeStore u w storeOpts world volumeID args opts) =
      ⟨some e, args.map Call.filepathAbs ++ [.shutdownLock true, .openRepository,
        .findVolume volumeID, .newSnapshot opts.Description, .openChunkIndex, .lockRelease] ++
        (store u w storeOpts world repository snapshot (collectTargets world args)
          opts).trace⟩ := by
    unfold executeStore
    simp only [hlock, hrepo, hvol, hsnap, hidx, herr, Bool.not_true, Bool.false_eq_true,
      if_false]
  rw [htrace]
  refine ⟨rfl, ?_⟩
  apply noPersistence_mem
  simp only [noPersistence] at hs
  simp [noPersistence, List.all_append, List.all_map, Call.isPersistence]
  simpa using hs

/-- Claim C5 at a pedantic run of three backends whose second file fails:
`executeStore` returns the error of that file and saves nothing. -/
theorem executeStore_store_error_witness :
    (executeStore specUtils 64 (sampleOpts 1 true) (sampleWorld 3 sampleStream) "vol" ["/a"]
      (sampleOpts 1 true)).err = some (.other "permission denied") ∧
    (∀ c ∈ (executeStore specUtils 64 (sampleOpts 1 true) (sampleWorld 3 sampleStream) "vol"
      ["/a"] (sampleOpts 1 true)).trace, c.isPersistence = false) :=
  executeStore_store_error specUtils 64 (sampleOpts 1 true) (sampleWorld 3 sampleStream) "vol"
    ["/a"] (sampleOpts 1 true) ⟨3⟩ ⟨"vol"⟩ sampleSnapshot (.other "permission denied")
    rfl rfl rfl rfl rfl (by decide)

/-- Claim C6: in every run of `executeStore` each persistence call finds a
shutdown lock held (obtained and not yet released); the persistence calls
made are a beginning of `snapshot.Save`, `volume.AddSnapshot`,
`chunkIndex.Save`, `repository.Save` in this order, each made only when all
earlier ones returned nil; and when either lock is not obtained none is made. -/
theorem executeStore_persists_under_lock (u : Utils) (w : Nat) (storeOpts : StoreOptions)
    (world : World) (volumeID : String) (args : List String) (opts : StoreOptions) :
    persistsUnderLock 0 (executeStore u w storeOpts world volumeID args opts).trace = true ∧
    (executeStore u w storeOpts world volumeID args opts).trace.filter Call.isPersistence <+:
      [.snapshotSave, .volumeAddSnapshot, .chunkIndexSave, .repositorySave] ∧
    (Call.volumeAddSnapshot ∈ (executeStore u w storeOpts world volumeID args opts).trace →
      world.snapshotSave = none) ∧
    (Call.chunkIndexSave ∈ (executeStore u w storeOpts world volumeID args opts).trace →
      world.snapshotSave = none ∧ world.addSnapshot = none) ∧
    (Call.repositorySave ∈ (executeStore u w storeOpts world volumeID args opts).trace →
      world.snapshotSave = none ∧ world.addSnapshot = none ∧ world.chunkIndexSave = none) ∧
    (world.lock1 = false ∨ world.lock2 = false →
      noPersistence (executeStore u w storeOpts world volumeID args opts).trace = true) := by
  obtain ⟨pre, hpre, h | ⟨h1, h2, h⟩⟩ := executeStore_shape u w storeOpts world volumeID args opts
  · rw [h]
    have hno : ∀ c : Call, c.isPersistence = true → c ∉ pre := by
      intro c hc hmem
      rw [noPersistence_mem pre hpre c hmem] at hc
      cases hc
    refine ⟨persistsUnderLock_of_noPersistence pre 0 hpre, ?_, ?_, ?_, ?_, fun _ => hpre⟩
    · rw [noPersistence_filter pre hpre]
      exact List.nil_prefix
    · intro hm; exact absurd hm (hno _ rfl)
    · intro hm; exact absurd hm (hno _ rfl)
    · intro hm; exact absurd hm (hno _ rfl)
  · rw [h]
    have hno : ∀ c : Call, c.isPersistence = true → c ∉ pre := by
      intro c hc hmem
      rw [noPersistence_mem pre hpre c hmem] at hc
      cases hc
    have hv := hno .volumeAddSnapshot rfl
    have hc := hno .chunkIndexSave rfl
    have hr := hno .repositorySave rfl
    have hlocks : ¬ (world.lock1 = false ∨ world.lock2 = false) := by
      simp [h1, h2]
    rcases persist_cases world with ⟨e, s1, hp⟩ | ⟨e, s1, s2, hp⟩ | ⟨e, s1, s2, s3, hp⟩ |
        ⟨s1, s2, s3, hp⟩ <;>
      rw [hp] <;>
      refine ⟨?_, ?_, ?_, ?_, ?_, fun hl => absurd hl hlocks⟩ <;>
      first
        | (rw [persistsUnderLock_append, persistsUnderLock_of_noPersistence pre 0 hpre]
           simp [persistsUnderLock, Call.isPersistence])
        | (rw [List.filter_append, noPersistence_filter pre hpre]
           simp [List.filter, Call.isPersistence])
        | simp [hv, hc, hr, s1, s2, s3]
        | simp [hv, hc, hr, s1, s2]
        | simp [hv, hc, hr, s1]

/-- A configuration error makes `store` return right after the
working-directory query: an unknown compression or encryption name, or a
tolerance of at least the backend count and below `2^(w-1)`. -/
theorem store_config_error (u : Utils) (w : Nat) (storeOpts : StoreOptions) (world : World)
    (repository : Repository) (snapshot : Snapshot) (targets : List String)
    (opts : StoreOptions) (wd : String) (hw : 0 < w) (hwd : world.getwd = .ok wd)
    (hbad : (repository.numBackends ≤ opts.FailureTolerance ∧
        opts.FailureTolerance < 2 ^ (w - 1)) ∨
      (∃ m, u.CompressionTypeFromString opts.Compression = .error m) ∨
      (∃ m, u.EncryptionTypeFromString opts.Encryption = .error m)) :
    ∃ e, store u w storeOpts world repository snapshot targets opts =
        ⟨some e, [.shutdownFirst, .getwd], snapshot.Errors, []⟩ ∧
      (e = ErrRedundancyAmount ∨
        (∃ m, u.CompressionTypeFromString opts.Compression = .error m ∧ e = .other m) ∨
        (∃ m, u.EncryptionTypeFromString opts.Encryption = .error m ∧ e = .other m)) := by
  unfold store
  simp only [hwd]
  by_cases hg : wrapInt w ((repository.numBackends : Int) - toInt w opts.FailureTolerance) ≤ 0
  · exact ⟨.redundancyAmount, by simp [hg], Or.inl rfl⟩
  · simp only [hg, if_false]
    cases hc : u.CompressionTypeFromString opts.Compression with
    | error m => exact ⟨.other m, rfl, Or.inr (Or.inl ⟨m, rfl, rfl⟩)⟩
    | ok compression =>
      cases he : u.EncryptionTypeFromString opts.Encryption with
      | error m => exact ⟨.other m, rfl, Or.inr (Or.inr ⟨m, rfl, rfl⟩)⟩
      | ok encryption =>
        exfalso
        rcases hbad with ⟨hle, hT⟩ | ⟨m, hm⟩ | ⟨m, hm⟩
        · rw [guard_exact w _ _ hw (by omega) hT] at hg
          omega
        · rw [hc] at hm
          cases hm
        · rw [he] at hm
          cases hm

/-- Claim C7 as stated fails: with the unknown compression name "bogus" the
error comes back only after the shutdown lock, the repository open, the
volume lookup, the snapshot creation, the chunk-index open and the
working-directory query. -/
theorem executeStore_config_error_late :
    specUtils.CompressionTypeFromString sampleBadOpts.Compression = .error "unknown compression" ∧
    executeStore specUtils 64 sampleBadOpts (sampleWorld 3 []) "vol" ["/a"] sampleBadOpts =
      ⟨some (.other "unknown compression"),
        [.filepathAbs "/a", .shutdownLock true, .openRepository, .findVolume "vol",
          .newSnapshot "", .openChunkIndex, .lockRelease, .shutdownFirst, .getwd]⟩ ∧
    (executeStore specUtils 64 sampleBadOpts (sampleWorld 3 []) "vol" ["/a"]
        sampleBadOpts).trace.filter Call.isEarlyAccess =
      [.openRepository, .openChunkIndex, .getwd] := by
  refine ⟨by simp [specUtils, specCompressionTypeFromString, sampleBadOpts], by decide,
    by decide⟩

/-- Claim C7 as amended: when the shutdown lock is obtained and the repository
open, the volume lookup, the snapshot creation, the chunk-index open and the
working-directory query succeed, a configuration error (an unknown
compression or encryption name, or a tolerance of at least the backend count
and below `2^(w-1)`) is what `executeStore` returns, after exactly
these calls and the release of the lock: `snapshot.Add`, the second lock and
the persistence calls are never reached. -/
theorem executeStore_config_error (u : Utils) (w : Nat) (storeOpts : StoreOptions)
    (world : World) (volumeID : String) (args : List String) (opts : StoreOptions)
    (repository : Repository) (volume : Volume) (snapshot : Snapshot) (wd : String)
    (hw : 0 < w)
    (hlock : world.lock1 = true) (hrepo : world.openRepository = .ok repository)
    (hvol : world.findVolume volumeID = .ok volume)
    (hsnap : world.newSnapshot opts.Description = .ok snapshot)
    (hidx : world.openChunkIndex = none) (hwd : world.getwd = .ok wd)
    (hbad : (repository.numBackends ≤ opts.FailureTolerance ∧
        opts.FailureTolerance < 2 ^ (w - 1)) ∨
      (∃ m, u.CompressionTypeFromString opts.Compression = .error m) ∨
      (∃ m, u.EncryptionTypeFromString opts.Encryption = .error m)) :
    ∃ e, executeStore u w storeOpts world volumeID args opts =
        ⟨some e, args.map Call.filepathAbs ++ [.shutdownLock true, .openRepository,
          .findVolume volumeID, .newSnapshot opts.Description, .openChunkIndex, .lockRelease,
          .shutdownFirst, .getwd]⟩ ∧
      (e = ErrRedundancyAmount ∨
        (∃ m, u.CompressionTypeFromString opts.Compression = .error m ∧ e = .other m) ∨
        (∃ m, u.EncryptionTypeFromString opts.Encryption = .error m ∧ e = .other m)) := by
  obtain ⟨e, hs, he⟩ := store_config_error u w storeOpts world repository snapshot
    (collectTargets world args) opts wd hw hwd hbad
  refine ⟨e, ?_, he⟩
  unfold executeStore
  simp only [hlock, hrepo, hvol, hsnap, hidx, hs, Bool.not_true, Bool.false_eq_true, if_false]
  simp

/-- Claim C7 as amended, at three backends and tolerance three. -/
theorem executeStore_config_error_witness :
    ∃ e, executeStore specUtils 64 (sampleOpts 3 false) (sampleWorld 3 []) "vol" ["/a"]
        (sampleOpts 3 false) =
        ⟨some e, ["/a"].map Call.filepathAbs ++ [.shutdownLock true, .openRepository,
          .findVolume "vol", .newSnapshot (sampleOpts 3 false).Description, .openChunkIndex,
          .lockRelease, .shutdownFirst, .getwd]⟩ ∧
      (e = ErrRedundancyAmount ∨
        (∃ m, specUtils.CompressionTypeFromString (sampleOpts 3 false).Compression = .error m ∧
          e = .other m) ∨
        (∃ m, specUtils.EncryptionTypeFromString (sampleOpts 3 false).Encryption = .error m ∧
          e = .other m)) :=
  executeStore_config_error specUtils 64 (sampleOpts 3 false) (sampleWorld 3 []) "vol" ["/a"]
    (sampleOpts 3 false) ⟨3⟩ ⟨"vol"⟩ sampleSnapshot "/" (by decide) rfl rfl rfl rfl rfl rfl
    (Or.inl ⟨by decide, by decide⟩)

/-! ## configureStoreOpts -/

/-- Claim C8: `configureStoreOpts` never changes `Description`; it changes
nothing when the alias is not in the configuration; each of `Compression`,
`Encryption`, `FailureTolerance`, `Excludes`, `Pedantic` keeps its
command-line value when its flag was set, and takes the value of the
configuration entry of the alias when the alias is there and the flag was not
set. -/
theorem configureStoreOpts_frame (repositories : String → Option RepoConfig)
    (repoAlias : String) (changed : String → Bool) (opts : StoreOptions) :
    (configureStoreOpts repositories repoAlias changed opts).Description = opts.Description ∧
    (repositories repoAlias = none →
      configureStoreOpts repositories repoAlias changed opts = opts) ∧
    (changed "compression" = true →
      (configureStoreOpts repositories repoAlias changed opts).Compression =
        opts.Compression) ∧
    (changed "encryption" = true →
      (configureStoreOpts repositories repoAlias changed opts).Encryption = opts.Encryption) ∧
    (changed "tolerance" = true →
      (configureStoreOpts repositories repoAlias changed opts).FailureTolerance =
        opts.FailureTolerance) ∧
    (changed "excludes" = true →
      (configureStoreOpts repositories repoAlias changed opts).Excludes = opts.Excludes) ∧
    (changed "pedantic" = true →
      (configureStoreOpts repositories repoAlias changed opts).Pedantic = opts.Pedantic) ∧
    (∀ rep, repositories repoAlias = some rep →
      (changed "compression" = false →
        (configureStoreOpts repositories repoAlias changed opts).Compression =
          rep.Compression) ∧
      (changed "encryption" = false →
        (configureStoreOpts repositories repoAlias changed opts).Encryption =
          rep.Encryption) ∧
      (changed "tolerance" = false →
        (configureStoreOpts repositories repoAlias changed opts).FailureTolerance =
          rep.Tolerance) ∧
      (changed "excludes" = false →
        (configureStoreOpts repositories repoAlias changed opts).Excludes =
          rep.StoreExcludes) ∧
      (changed "pedantic" = false →
        (configureStoreOpts repositories repoAlias changed opts).Pedantic = rep.Pedantic)) := by
  unfold configureStoreOpts
  cases hrep : repositories repoAlias with
  | none => simp
  | some rep =>
    cases h1 : changed "compression" <;> cases h2 : changed "encryption" <;>
      cases h3 : changed "tolerance" <;> cases h4 : changed "excludes" <;>
      cases h5 : changed "pedantic" <;> simp

/-! ## executeCat -/

/-- Claim C9: once the repository is open and the snapshot found, `executeCat`
returns the error "<file>: No such file or directory" exactly when the file
is not a key of `snapshot.Archives`, and then decodes and writes nothing;
when the file is a key and decoding succeeds it makes one write to standard
output, of exactly the decoded bytes, and returns what that write returns;
when decoding fails it returns the decode error and writes nothing. -/
theorem executeCat_spec (world : CatWorld) (snapshotID : String) (file : String)
    (repository : Repository) (snapshot : Snapshot)
    (hrepo : world.openRepository = .ok repository)
    (hsnap : world.findSnapshot snapshotID = .ok snapshot) :
    ((executeCat world snapshotID file).err = some (.noSuchFile file) ↔
      snapshot.Archives file = none) ∧
    (Error.noSuchFile file).message = file ++ ": No such file or directory" ∧
    (snapshot.Archives file = none →
      (executeCat world snapshotID file).trace =
        [.openRepository, .findSnapshot snapshotID]) ∧
    (∀ archive b, snapshot.Archives file = some archive →
      world.decodeArchiveData repository archive = .ok b →
        (executeCat world snapshotID file).trace =
          [.openRepository, .findSnapshot snapshotID, .decodeArchiveData archive,
            .stdoutWrite b] ∧
        stdoutBytes (executeCat world snapshotID file).trace = b ∧
        (executeCat world snapshotID file).err = (world.stdoutWrite b).map Error.other) ∧
    (∀ archive m, snapshot.Archives file = some archive →
      world.decodeArchiveData repository archive = .error m →
        (executeCat world snapshotID file).err = some (.other m) ∧
        stdoutBytes (executeCat world snapshotID file).trace = []) := by
  unfold executeCat
  simp only [hrepo, hsnap]
  cases harch : snapshot.Archives file with
  | none => simp [Error.message]
  | some archive =>
    dsimp only
    cases hdec : world.decodeArchiveData repository archive with
    | error m =>
      refine ⟨by simp, rfl, by simp, ?_, ?_⟩
      · intro a b ha hb
        obtain rfl := Option.some.inj ha
        rw [hdec] at hb
        cases hb
      · intro a m' ha hm
        obtain rfl := Option.some.inj ha
        rw [hdec] at hm
        cases hm
        exact ⟨rfl, rfl⟩
    | ok b =>
      refine ⟨?_, rfl, by simp, ?_, ?_⟩
      · cases hw : world.stdoutWrite b <;> simp
      · intro a b' ha hb
        obtain rfl := Option.some.inj ha
        rw [hdec] at hb
        cases hb
        exact ⟨rfl, by simp [stdoutBytes], rfl⟩
      · intro a m ha hm
        obtain rfl := Option.some.inj ha
        rw [hdec] at hm
        cases hm

/-- Claim C9 at a snapshot that holds "/a" only: "/a" is written out as
decoded, "/b" is reported missing. -/
theorem executeCat_spec_witness :
    executeCat sampleCatWorld "snap" "/a" =
      ⟨none, [.openRepository, .findSnapshot "snap", .decodeArchiveData ⟨"/a"⟩,
        .stdoutWrite [104, 105]]⟩ ∧
    (executeCat sampleCatWorld "snap" "/b").err = some (.noSuchFile "/b") :=
  ⟨by
    have h := (executeCat_spec sampleCatWorld "snap" "/a" ⟨1⟩ sampleCatSnapshot rfl rfl).2.2.2.1
      ⟨"/a"⟩ [104, 105] (by decide) rfl
    have herr : (executeCat sampleCatWorld "snap" "/a").err = none := h.2.2
    have htrace := h.1
    revert herr htrace
    generalize executeCat sampleCatWorld "snap" "/a" = r
    intro herr htrace
    obtain ⟨err, trace⟩ := r
    simp only at herr htrace
    rw [herr, htrace],
   ((executeCat_spec sampleCatWorld "snap" "/b" ⟨1⟩ sampleCatSnapshot rfl rfl).1).2
    (by decide)⟩

/-! ## OnedriveStorage.NewBackend -/

/-- Claim C10: for a URL without user information or with an empty username,
`NewBackend` returns `ErrInvalidUsername`; for a URL with a username that is
not empty and no password it returns `ErrInvalidPassword`; in both cases it
returns (no `log.Fatal`, and the nil-safe `Username` keeps the first line from
panicking) having done nothing but print the username: no consent prompt, no
HTTP server, no code prompt, no token exchange. -/
theorem NewBackend_credentials (world : DriveWorld) (u : URL) :
    (u.User = none ∨ Username u.User = "" →
      NewBackend world u =
        ⟨.returned false (some ErrInvalidUsername), [.printf (Username u.User)]⟩) ∧
    (Username u.User ≠ "" → (Password u.User).2 = false →
      NewBackend world u =
        ⟨.returned false (some ErrInvalidPassword), [.printf (Username u.User)]⟩) := by
  unfold NewBackend
  constructor
  · intro h
    simp [h]
  · intro hname hpw
    have hsome : ¬ (u.User = none ∨ Username u.User = "") := by
      rintro (h | h)
      · rw [h] at hname
        exact hname rfl
      · exact hname h
    simp only [hsome, if_false]
    cases hp : Password u.User with
    | mk pw pwexist =>
      rw [hp] at hpw
      simp only at hpw
      subst hpw
      rfl

/-- Claim C10 at a URL without user information and at the user "id" without
password. -/
theorem NewBackend_credentials_witness :
    NewBackend sampleDriveWorld ⟨none, "/repo"⟩ =
      ⟨.returned false (some ErrInvalidUsername), [.printf ""]⟩ ∧
    NewBackend sampleDriveWorld ⟨some ⟨"id", "", false⟩, "/repo"⟩ =
      ⟨.returned false (some ErrInvalidPassword), [.printf "id"]⟩ :=
  ⟨(NewBackend_credentials sampleDriveWorld ⟨none, "/repo"⟩).1 (Or.inl rfl),
   (NewBackend_credentials sampleDriveWorld ⟨some ⟨"id", "", false⟩, "/repo"⟩).2
    (by decide) rfl⟩

end Knoxite
